import Mathlib

/-!
Verification of the t3rn BRN balance-checker bot (`src/main.py`) against its
specification. Each section embeds one component of the Python source as
executable Lean definitions (effects such as sleeps, store reads/writes and
outbound messages are made explicit as data), and the theorems settle the
spec's claims about them.
-/

set_option maxRecDepth 4000

/-! ## Language table (`TEXTS` in `main.py`)

The bot supports two languages; `get_user_language` defaults to `'en'`. Only
the keys the claims mention are embedded, with the exact strings of the
source table. `wallet_limit` is stored as a template and formatted with
`MAX_WALLETS`; we embed the formatted result directly. -/

inductive Lang
| en
| ru
deriving DecidableEq

def MAX_WALLETS : Nat := 5

def t_check_balance : Lang → String
| .en => "Check balances"
| .ru => "Проверить балансы"

def t_wallet_list : Lang → String
| .en => "Wallet list"
| .ru => "Список кошельков"

def t_auto_check_on : Lang → String
| .en => "✅ Enable auto-check"
| .ru => "✅ Включить автопроверку"

def t_auto_check_off : Lang → String
| .en => "❌ Disable auto-check"
| .ru => "❌ Выключить автопроверку"

def t_no_wallets : Lang → String
| .en => "You have no saved wallets"
| .ru => "У вас нет сохраненных кошельков"

def t_getting_info : Lang → String
| .en => "Getting information..."
| .ru => "Получаю информацию..."

def t_wallet_info : Lang → String
| .en => "Wallet information:"
| .ru => "Информация по кошелькам:"

def t_wallet : Lang → String
| .en => "Wallet:"
| .ru => "Кошелек:"

def t_balance : Lang → String
| .en => "Balance:"
| .ru => "Баланс:"

def t_tx_count : Lang → String
| .en => "Transaction count:"
| .ru => "Количество транзакций:"

def t_wallet_exists : Lang → String
| .en => "This wallet is already added"
| .ru => "Этот кошелек уже добавлен"

/-- `TEXTS[lang]['wallet_limit'].format(MAX_WALLETS)` with the template
"Reached the limit of ... wallets" / "Достигнут лимит в ... кошельков". -/
def t_wallet_limit (lang : Lang) (n : Nat) : String :=
match lang with
| .en => "Reached the limit of " ++ toString n ++ " wallets"
| .ru => "Достигнут лимит в " ++ toString n ++ " кошельков"

def t_wallet_saved : Lang → String
| .en => "Wallet saved"
| .ru => "Кошелек сохранен"

def t_error_occurred : Lang → String
| .en => "An error occurred, please try again later"
| .ru => "Произошла ошибка, попробуйте позже"

/-! ## Rate limiter (`RateLimiterMiddleware.__call__`)

State: the Python dict `last_message_time` is an association list read by
first match and updated by cons (dict overwrite). Times are rationals.

One call of the middleware with arrival time `now` for identity `uid`:
`current_time = time.time()` is captured at call time; if an entry exists
and `now - last < rate_limit` the task sleeps the remainder, so the wrapped
handler runs at `now + delay`; then `last_message_time[uid] = current_time`
stores the ARRIVAL time (not the post-delay time). `rlStep` returns the
handler-observed time and the new state. -/

def rlLookup (uid : Int) : List (Int × ℚ) → Option ℚ
| [] => none
| (u, t) :: rest => if u = uid then some t else rlLookup uid rest

def rlStep (rate_limit : ℚ) (st : List (Int × ℚ)) (uid : Int) (now : ℚ) :
    ℚ × List (Int × ℚ) :=
match rlLookup uid st with
| some t0 =>
    if now - t0 < rate_limit then
      (now + (rate_limit - (now - t0)), (uid, now) :: st)
    else
      (now, (uid, now) :: st)
| none => (now, (uid, now) :: st)

/-- Run the middleware over a sequence of arrivals `(uid, time)`, returning
the handler-observed times in order. -/
def rlRun (rate_limit : ℚ) (st : List (Int × ℚ)) :
    List (Int × ℚ) → List ℚ
| [] => []
| (u, a) :: rest =>
    let s := rlStep rate_limit st u a
    s.1 :: rlRun rate_limit s.2 rest

/-! ## Balance rendering

`balance = Decimal(coin_balance) / Decimal('1000000000000000000')` then
rendered with `f"{balance:.6f}"`. For a nonnegative integer raw value the
division is exact (within Decimal's 28-digit context, ample for reachable
balances) and `.6f` rounds half-to-even at the 6th fractional digit. -/

def padZeros (n : Nat) (s : String) : String :=
  String.mk (List.replicate (n - s.length) '0') ++ s

/-- Round `raw` (units of 10^-18) to units of 10^-6, half-to-even. -/
def round6HalfEven (raw : Nat) : Nat :=
  let q := raw / 10 ^ 12
  let r := raw % 10 ^ 12
  let half := 5 * 10 ^ 11
  if half < r then q + 1
  else if r < half then q
  else if q % 2 = 1 then q + 1 else q

/-- `f"{raw / 10**18:.6f}"` for a nonnegative integer `raw`. -/
def formatBalance6 (raw : Nat) : String :=
  let v := round6HalfEven raw
  toString (v / 10 ^ 6) ++ "." ++ padZeros 6 (toString (v % 10 ^ 6))

/-! ## Balance client (`get_wallet_info`)

The two network calls of one attempt are modelled by an oracle
`Nat → Attempt` giving, per attempt index, the outcome of the balance call
and of the counters call.

  * `BalanceCall.ok cb`: HTTP 200 with parsed JSON; `cb` is the
    `coin_balance` field, `none` when the field is absent
    (`data.get('coin_balance', 0)` then yields 0).
  * `BalanceCall.badStatus`: a non-200 status (the `resp.status != 200`
    branch).
  * `BalanceCall.exn`: a raised exception — network error, per-attempt
    timeout, or malformed JSON — caught by the `except` clause.

Likewise for the counters call; note a counters EXCEPTION propagates to the
outer `except` and retries the whole fetch, while a counters bad STATUS only
yields `tx_count = "N/A"`.

The function returns the result (`failure` for the
`return TEXTS[lang]['error_occurred']` lines, `success` for the formatted
report, `noReturn` for Python's implicit `None` were the loop to exhaust),
the number of attempts made, and the list of backoff sleeps
(`asyncio.sleep(1 * (attempt + 1))`) in order. -/

inductive BalanceCall
| ok (coin_balance : Option Nat)
| badStatus
| exn
deriving DecidableEq

inductive CountersCall
| ok (transactions_count : Option Nat)
| badStatus
| exn
deriving DecidableEq

structure Attempt where
  bal : BalanceCall
  ctr : CountersCall
deriving DecidableEq

inductive FetchResult
| success (text : String)
| failure (text : String)
| noReturn
deriving DecidableEq

structure FetchOut where
  result : FetchResult
  attemptsMade : Nat
  delays : List Nat
deriving DecidableEq

def retries : Nat := 3

/-- `counters.get("transactions_count", "0")` rendered into the report; the
`exn` case never reaches rendering (the exception retries the fetch). -/
def txRender : CountersCall → String
| .ok t => toString (t.getD 0)
| .badStatus => "N/A"
| .exn => "N/A"

/-- The success report string built at the end of a successful attempt. -/
def walletText (wallet : String) (lang : Lang) (raw : Nat)
    (tx : String) : String :=
  t_wallet lang ++ " " ++ wallet ++ "\n" ++
  t_balance lang ++ " " ++ formatBalance6 raw ++ " BRN\n" ++
  t_tx_count lang ++ " " ++ tx

/-- One iteration of the `for attempt in range(retries)` loop and its
continuations; `attempt` is the 0-based loop variable, `rem` the iterations
left, `made` and `ds` accumulate attempts and sleeps. -/
def fetchLoop (oracle : Nat → Attempt) (wallet : String) (lang : Lang) :
    Nat → Nat → Nat → List Nat → FetchOut
| _, 0, made, ds => ⟨.noReturn, made, ds.reverse⟩
| attempt, rem + 1, made, ds =>
    let a := oracle attempt
    match a.bal with
    | .badStatus =>
        if attempt < retries - 1 then
          fetchLoop oracle wallet lang (attempt + 1) rem (made + 1)
            ((attempt + 1) :: ds)
        else ⟨.failure (t_error_occurred lang), made + 1, ds.reverse⟩
    | .exn =>
        if attempt < retries - 1 then
          fetchLoop oracle wallet lang (attempt + 1) rem (made + 1)
            ((attempt + 1) :: ds)
        else ⟨.failure (t_error_occurred lang), made + 1, ds.reverse⟩
    | .ok cb =>
        match a.ctr with
        | .exn =>
            if attempt < retries - 1 then
              fetchLoop oracle wallet lang (attempt + 1) rem (made + 1)
                ((attempt + 1) :: ds)
            else ⟨.failure (t_error_occurred lang), made + 1, ds.reverse⟩
        | c =>
            ⟨.success (walletText wallet lang (cb.getD 0) (txRender c)),
              made + 1, ds.reverse⟩

def get_wallet_info (oracle : Nat → Attempt) (wallet : String)
    (lang : Lang) : FetchOut :=
  fetchLoop oracle wallet lang 0 retries 0 []

/-! ## Inbound text dispatch (`handle_text`)

`handle_text` first checks the button labels (the `lang`, `'en'` and `'ru'`
variants of each), then `re.match(r'^0x[a-fA-F0-9]{40}$', text)`; a text
matching no branch falls off the end of the function — nothing is sent,
stored, fetched or logged.

Python `re` semantics for the anchor: `$` matches at the end of the string
OR just before a single newline at the end, so the pattern also accepts a
valid wallet followed by one trailing `'\n'`. -/

def isHexDigitPy (c : Char) : Bool :=
  ('0' ≤ c && c ≤ '9') || ('a' ≤ c && c ≤ 'f') || ('A' ≤ c && c ≤ 'F')

/-- `0x` followed by exactly 40 hex characters, over a char list. -/
def walletChars : List Char → Bool
| '0' :: 'x' :: rest => rest.length == 40 && rest.all isHexDigitPy
| _ => false

/-- `re.match(r'^0x[a-fA-F0-9]{40}$', s) is not None`, with Python's
`$`-before-final-newline rule. -/
def re_match_wallet (s : String) : Bool :=
  walletChars s.data ||
    (s.data.getLast? == some '\n' && walletChars s.data.dropLast)

/-- Modelled from the spec: "only `^0x` + 40 hex characters is accepted",
i.e. the string consists exactly of `0x` and 40 hex characters, nothing
else. Stated separately from `re_match_wallet` to compare the spec's
wording against the source's regex semantics. -/
def specWalletExact (s : String) : Bool :=
  walletChars s.data

inductive HandleAction
| checkBalances
| walletList
| toggleAuto
| registerWallet
| ignore
deriving DecidableEq

/-- The `if`-chain of `handle_text`, deciding which sub-handler runs;
`ignore` is the fall-through (the function body ends with no `else`). -/
def handle_text (lang : Lang) (text : String) : HandleAction :=
  if text = t_check_balance lang ∨ text = t_check_balance Lang.en ∨
      text = t_check_balance Lang.ru then .checkBalances
  else if text = t_wallet_list lang ∨ text = t_wallet_list Lang.en ∨
      text = t_wallet_list Lang.ru then .walletList
  else if text ∈ [t_auto_check_on lang, t_auto_check_off lang,
      t_auto_check_on Lang.en, t_auto_check_off Lang.en,
      t_auto_check_on Lang.ru, t_auto_check_off Lang.ru] then .toggleAuto
  else if re_match_wallet text then .registerWallet
  else .ignore


/-- The eight button labels checked before the wallet pattern (both
languages; for `lang ∈ {en, ru}` the conditions of `handle_text` reference
exactly these). -/
def commandLabels : List String :=
  [t_check_balance Lang.en, t_check_balance Lang.ru,
   t_wallet_list Lang.en, t_wallet_list Lang.ru,
   t_auto_check_on Lang.en, t_auto_check_off Lang.en,
   t_auto_check_on Lang.ru, t_auto_check_off Lang.ru]

/-! ## State store (`wallets` table) and its handlers

A store is the `wallets` table in rowid (insertion) order; a row is
`(user_id, wallet, auto_check)`. `users` (language) is passed separately as
the already-fetched `lang`. -/

structure WalletRow where
  user_id : Int
  wallet : String
  auto_check : Int
deriving DecidableEq

abbrev Store := List WalletRow

/-- `get_user_wallets`: `SELECT wallet FROM wallets WHERE user_id = ?` in
rowid order; its `except` clause swallows a store failure (`dbOk = false`)
and returns the empty list. -/
def get_user_wallets (dbOk : Bool) (uid : Int) (store : Store) :
    List String :=
  if dbOk then (store.filter (fun r => r.user_id == uid)).map
    (fun r => r.wallet)
  else []

/-- `SELECT DISTINCT auto_check FROM wallets WHERE user_id = ?` then
`fetchone()`, and `row[0] if row else 0`: SQLite scans in rowid order, so
the single fetched row holds the first value encountered. -/
def distinct_auto_check (uid : Int) (store : Store) : Int :=
  ((store.filter (fun r => r.user_id == uid)).map
    (fun r => r.auto_check)).head?.getD 0

/-- The string a fetch result contributes to a reply (`noReturn` would be
Python's `None` interpolated into the f-string). -/
def resultText : FetchResult → String
| .success t => t
| .failure t => t
| .noReturn => "None"

/-- `handle_wallet`: duplicate check, wallet-count limit check, then
`INSERT INTO wallets (user_id, wallet, auto_check)` with the identity's
current flag, then fetch and reply. Returns the reply text and the new
store. -/
def handle_wallet (oracle : Nat → Attempt) (uid : Int) (text : String)
    (lang : Lang) (store : Store) : String × Store :=
  let is_auto_check := distinct_auto_check uid store
  let wallets := get_user_wallets true uid store
  if text ∈ wallets then (t_wallet_exists lang, store)
  else if MAX_WALLETS ≤ wallets.length then
    (t_wallet_limit lang MAX_WALLETS, store)
  else
    (resultText (get_wallet_info oracle text lang).result ++ "\n" ++
        t_wallet_saved lang,
      store ++ [⟨uid, text, is_auto_check⟩])

def t_auto_check_enabled : Lang → String
| .en => "Automatic balance check enabled"
| .ru => "Автоматическая проверка балансов включена"

def t_auto_check_disabled : Lang → String
| .en => "Automatic balance check disabled"
| .ru => "Автоматическая проверка балансов выключена"

/-- `cmd_check_interval`: read the identity's flag (`DISTINCT` + first
row), flip it by Python truthiness (`0 if current_status else 1`), and
`UPDATE wallets SET auto_check = ? WHERE user_id = ?` — every row of the
identity uniformly. -/
def cmd_check_interval (uid : Int) (lang : Lang) (store : Store) :
    String × Store :=
  let current_status := distinct_auto_check uid store
  let new_status : Int := if current_status ≠ 0 then 0 else 1
  ((if new_status ≠ 0 then t_auto_check_enabled lang
      else t_auto_check_disabled lang),
    store.map (fun r =>
      if r.user_id == uid then
        { r with auto_check := new_status }
      else r))

/-- `cmd_check`: the texts passed to `message.answer`, in order. With the
store down (`dbOk = false`), `get_user_wallets` swallows the failure and
returns `[]`, so the no-wallets branch replies; were the later
`DISTINCT auto_check` read reached with the store down, its exception would
hit the outer `except` and reply the generic error. `oracles` gives each
wallet's fetch oracle. -/
def cmd_check (dbOk : Bool) (oracles : String → Nat → Attempt) (uid : Int)
    (store : Store) (lang : Lang) : List String :=
  let wallets := get_user_wallets dbOk uid store
  if wallets = [] then [t_no_wallets lang]
  else if dbOk then
    [t_getting_info lang,
     t_wallet_info lang ++ "\n\n" ++ String.join (wallets.map (fun w =>
       resultText (get_wallet_info (oracles w) w lang).result ++ "\n\n"))]
  else [t_error_occurred lang]


/-- A user-1 store at the wallet limit. -/
def store5 : Store :=
  [⟨1, "0xa1", 0⟩, ⟨1, "0xa2", 0⟩, ⟨1, "0xa3", 0⟩, ⟨1, "0xa4", 0⟩,
   ⟨1, "0xa5", 0⟩]

/-- All wallet rows of one identity carry the same auto-check flag. -/
def autoCheckUniform (store : Store) : Prop :=
  ∀ r1 ∈ store, ∀ r2 ∈ store,
    r1.user_id = r2.user_id → r1.auto_check = r2.auto_check

/-! ## Auto-check scheduler (`periodic_check`, dispatching phase)

One cycle collects a snapshot of `(user_id, wallet, language)` triples and
dispatches it. The dispatching loop
(`for i in range(0, len(users_to_check), chunk_size)`) slices chunks of 10;
for each entry it fetches, sends, and sleeps 2 s — the sleep is inside the
per-entry loop body, so it also runs after a chunk's LAST entry — and after
each chunk's inner loop it sleeps 5 s, including after the final chunk.
The happy-path trace (no per-entry failure) is modelled as an event list. -/

structure Entry where
  user_id : Int
  wallet : String
  language : Option Lang
deriving DecidableEq

inductive SchedEvent
| fetch (e : Entry)
| send (e : Entry)
| sleep (secs : Nat)
deriving DecidableEq

/-- `users_to_check[i:i + chunk_size]` slices for `i = 0, 10, 20, ...`. -/
def chunksOf10 (l : List Entry) : List (List Entry) :=
  if h : l = [] then [] else l.take 10 :: chunksOf10 (l.drop 10)
termination_by l.length
decreasing_by
  simp only [List.length_drop]
  have : 0 < l.length := List.length_pos.mpr h
  omega

/-- One entry of a chunk: fetch via the balance client, send the
notification, then `asyncio.sleep(2)`. -/
def entryEvents (e : Entry) : List SchedEvent :=
  [SchedEvent.fetch e, SchedEvent.send e, SchedEvent.sleep 2]

/-- The dispatching phase of one cycle: every chunk's entries in order,
then `asyncio.sleep(5)` after each chunk. -/
def dispatchEvents (entries : List Entry) : List SchedEvent :=
  (chunksOf10 entries).flatMap
    (fun c => c.flatMap entryEvents ++ [SchedEvent.sleep 5])

/-- Modelled from the spec: "wait 2 seconds before the next entry in the
chunk" — i.e. 2 s strictly BETWEEN entries, none after the chunk's last
entry. -/
def specChunkEvents : List Entry → List SchedEvent
| [] => []
| [e] => [SchedEvent.fetch e, SchedEvent.send e]
| e :: rest =>
    SchedEvent.fetch e :: SchedEvent.send e :: SchedEvent.sleep 2 ::
      specChunkEvents rest

/-- Modelled from the spec: "Between chunks, wait 5 seconds" — a single 5 s
wait strictly between consecutive chunks, nothing after the last chunk. -/
def specJoinChunks : List (List Entry) → List SchedEvent
| [] => []
| [c] => specChunkEvents c
| c :: rest => specChunkEvents c ++ SchedEvent.sleep 5 :: specJoinChunks rest

/-- Modelled from the spec: the whole dispatching phase as §4.2/§8 describe
it — 2 s only between entries inside a chunk, 5 s only between chunks. -/
def specDispatchEvents (entries : List Entry) : List SchedEvent :=
  specJoinChunks (chunksOf10 entries)

/-- A concrete snapshot of 23 eligible subscriptions. -/
def entries23 : List Entry :=
  (List.range 23).map (fun i => ⟨Int.ofNat i, toString i, some Lang.en⟩)


/-! # Theorems

The claims, in order: C1 (rate limiter), C2/C6/C10 (balance client),
C7/C4 (inbound dispatch), C5/C8/C9 (store handlers), C3 (scheduler). -/

/-! ## C1 theorems -/

/-- C1 counterexample. The claim says any two actions from one identity are
observed by the wrapped handler no closer than `rate_limit` apart, for every
sequence. With `rate_limit = 1` and arrivals at 0, 1/2, 9/10 the handler
observes calls at 0, 1, 3/2: the last two are only 1/2 apart. The limiter
records the arrival time, so the delay of the second action is not accounted
for when spacing the third. -/
theorem rate_limiter_sequence_cex :
    rlRun 1 [] [((0 : Int), (0 : ℚ)), (0, 1/2), (0, 9/10)] = [0, 1, 3/2] ∧
    (3/2 : ℚ) - 1 < 1 := by
  constructor
  · norm_num [rlRun, rlStep, rlLookup]
  · norm_num

/-- C1 amended: an action arriving `elapsed < rate_limit` after the
identity's RECORDED timestamp is delayed until `recorded + rate_limit`; an
action arriving at least `rate_limit` after it is never delayed; the
recorded timestamp becomes the action's arrival time immediately upon
admission. Hence a pair of actions whose first was undelayed is observed at
least `rate_limit` apart — but in a longer sequence consecutive handler
observations can be closer (see the counterexample), because the recorded
time is the arrival, not the delayed handler time. -/
theorem rate_limiter_step_spec (rate_limit : ℚ) (uid : Int) (a1 a2 : ℚ) :
    (rlStep rate_limit [] uid a1).1 = a1 ∧
    rlLookup uid (rlStep rate_limit [] uid a1).2 = some a1 ∧
    (a2 - a1 < rate_limit →
      (rlStep rate_limit (rlStep rate_limit [] uid a1).2 uid a2).1
        = a1 + rate_limit ∧
      rate_limit ≤
        (rlStep rate_limit (rlStep rate_limit [] uid a1).2 uid a2).1
          - (rlStep rate_limit [] uid a1).1) ∧
    (rate_limit ≤ a2 - a1 →
      (rlStep rate_limit (rlStep rate_limit [] uid a1).2 uid a2).1 = a2) ∧
    rlLookup uid
      (rlStep rate_limit (rlStep rate_limit [] uid a1).2 uid a2).2
        = some a2 := by
  refine ⟨by simp [rlStep, rlLookup], by simp [rlStep, rlLookup], ?_, ?_, ?_⟩
  · intro h
    constructor
    · simp [rlStep, rlLookup, h]
      ring
    · simp [rlStep, rlLookup, h]
      linarith
  · intro h
    simp [rlStep, rlLookup, not_lt.mpr h]
  · by_cases h : a2 - a1 < rate_limit <;> simp [rlStep, rlLookup, h]

/-- Witness for `rate_limiter_step_spec` at `rate_limit = 1`, arrivals 0 and
1/2. -/
theorem rate_limiter_step_spec_witness :
    (rlStep 1 [] 0 0).1 = 0 ∧
    rlLookup 0 (rlStep 1 [] 0 0).2 = some 0 ∧
    ((1/2 : ℚ) - 0 < 1 →
      (rlStep 1 (rlStep 1 [] 0 0).2 0 (1/2)).1 = 0 + 1 ∧
      1 ≤ (rlStep 1 (rlStep 1 [] 0 0).2 0 (1/2)).1 - (rlStep 1 [] 0 0).1) ∧
    ((1 : ℚ) ≤ 1/2 - 0 →
      (rlStep 1 (rlStep 1 [] 0 0).2 0 (1/2)).1 = 1/2) ∧
    rlLookup 0 (rlStep 1 (rlStep 1 [] 0 0).2 0 (1/2)).2 = some (1/2) :=
  rate_limiter_step_spec 1 0 0 (1/2)

/-! ## C2, C6, C10 theorems -/

/-- Each loop iteration counts one attempt, so the loop makes at most `rem`
further attempts. -/
lemma fetchLoop_attempts_le (oracle : Nat → Attempt) (wallet : String)
    (lang : Lang) :
    ∀ rem attempt made ds,
      (fetchLoop oracle wallet lang attempt rem made ds).attemptsMade
        ≤ made + rem := by
  intro rem
  induction rem with
  | zero => intro attempt made ds; simp [fetchLoop]
  | succ r ih =>
      intro attempt made ds
      show (fetchLoop oracle wallet lang attempt (r + 1) made ds).attemptsMade
        ≤ made + (r + 1)
      rcases hb : (oracle attempt).bal with cb | _ | _ <;>
        simp only [fetchLoop, hb]
      · rcases hc : (oracle attempt).ctr with t | _ | _ <;>
          simp only [hc]
        · simp
        · simp
        · split
          · have := ih (attempt + 1) (made + 1) ((attempt + 1) :: ds); omega
          · simp
      · split
        · have := ih (attempt + 1) (made + 1) ((attempt + 1) :: ds); omega
        · simp
      · split
        · have := ih (attempt + 1) (made + 1) ((attempt + 1) :: ds); omega
        · simp

/-- The loop only recurses while `attempt < retries - 1`, so with
`attempt + rem = retries` and `rem ≥ 1` it always returns through one of the
`return` statements — the Python function never falls off the loop. -/
lemma fetchLoop_returns (oracle : Nat → Attempt) (wallet : String)
    (lang : Lang) :
    ∀ rem attempt made ds, attempt + rem = retries → 1 ≤ rem →
      (fetchLoop oracle wallet lang attempt rem made ds).result
        ≠ FetchResult.noReturn := by
  intro rem
  induction rem with
  | zero => intro attempt made ds _ h1; omega
  | succ r ih =>
      intro attempt made ds hsum _
      show (fetchLoop oracle wallet lang attempt (r + 1) made ds).result
        ≠ FetchResult.noReturn
      rcases hb : (oracle attempt).bal with cb | _ | _ <;>
        simp only [fetchLoop, hb]
      · rcases hc : (oracle attempt).ctr with t | _ | _ <;>
          simp only [hc]
        · simp
        · simp
        · split
          next hlt =>
            exact ih (attempt + 1) (made + 1) ((attempt + 1) :: ds)
              (by omega) (by simp only [retries] at hsum hlt; omega)
          next => simp
      · split
        next hlt =>
          exact ih (attempt + 1) (made + 1) ((attempt + 1) :: ds)
            (by omega) (by simp only [retries] at hsum hlt; omega)
        next => simp
      · split
        next hlt =>
          exact ih (attempt + 1) (made + 1) ((attempt + 1) :: ds)
            (by omega) (by simp only [retries] at hsum hlt; omega)
        next => simp

/-- C2: the fetch makes at most 3 attempts, always returns (the loop never
exhausts without a `return`), and against an upstream whose balance endpoint
always fails it returns the failure report carrying the localized generic
error after exactly 3 attempts with backoff sleeps of 1s then 2s — never a
4th attempt and never an uncaught exception. -/
theorem get_wallet_info_retry_policy (oracle : Nat → Attempt)
    (wallet : String) (lang : Lang) :
    (get_wallet_info oracle wallet lang).attemptsMade ≤ 3 ∧
    (get_wallet_info oracle wallet lang).result ≠ FetchResult.noReturn ∧
    ((∀ i, (oracle i).bal = BalanceCall.badStatus ∨
            (oracle i).bal = BalanceCall.exn) →
      get_wallet_info oracle wallet lang
        = ⟨FetchResult.failure (t_error_occurred lang), 3, [1, 2]⟩) := by
  refine ⟨fetchLoop_attempts_le oracle wallet lang retries 0 0 [],
    fetchLoop_returns oracle wallet lang retries 0 0 [] rfl (by simp [retries]),
    ?_⟩
  intro h
  rcases h 0 with h0 | h0 <;> rcases h 1 with h1 | h1 <;>
    rcases h 2 with h2 | h2 <;>
    simp [get_wallet_info, fetchLoop, retries, h0, h1, h2]

/-- Witness for `get_wallet_info_retry_policy`: an upstream whose balance
endpoint always reports a bad status. -/
theorem get_wallet_info_retry_policy_witness :
    get_wallet_info
        (fun _ => ⟨BalanceCall.badStatus, CountersCall.badStatus⟩)
        "0xW" Lang.en
      = ⟨FetchResult.failure (t_error_occurred Lang.en), 3, [1, 2]⟩ :=
  (get_wallet_info_retry_policy
      (fun _ => ⟨BalanceCall.badStatus, CountersCall.badStatus⟩)
      "0xW" Lang.en).2.2 (fun _ => Or.inl rfl)

/-- C6: when the balance call of the first attempt succeeds but the counters
call returns a non-success status, the whole fetch is NOT retried: it
returns after one attempt, with no backoff sleeps, a success report whose
counter is the "N/A" sentinel while the fetched balance is still shown. -/
theorem counters_best_effort (oracle : Nat → Attempt) (wallet : String)
    (lang : Lang) (cb : Option Nat)
    (hb : (oracle 0).bal = BalanceCall.ok cb)
    (hc : (oracle 0).ctr = CountersCall.badStatus) :
    get_wallet_info oracle wallet lang
      = ⟨FetchResult.success (walletText wallet lang (cb.getD 0) "N/A"),
          1, []⟩ := by
  simp [get_wallet_info, fetchLoop, retries, hb, hc, txRender]

/-- Witness for `counters_best_effort`: balance 7 wei, counters endpoint
down. -/
theorem counters_best_effort_witness :
    get_wallet_info
        (fun _ => ⟨BalanceCall.ok (some 7), CountersCall.badStatus⟩)
        "0xW" Lang.en
      = ⟨FetchResult.success (walletText "0xW" Lang.en 7 "N/A"), 1, []⟩ :=
  counters_best_effort
    (fun _ => ⟨BalanceCall.ok (some 7), CountersCall.badStatus⟩)
    "0xW" Lang.en (some 7) rfl rfl

/-- C10: an HTTP 200 balance response whose JSON lacks the `coin_balance`
field is treated as balance 0 (`data.get('coin_balance', 0)`): the fetch
returns a success-shaped report after one attempt with no retry, and the
balance renders as "0.000000". (The counters call is assumed not to raise;
a raised exception there would retry the fetch, which is the separately
verified retry path.) -/
theorem missing_balance_defaults_zero (oracle : Nat → Attempt)
    (wallet : String) (lang : Lang)
    (hb : (oracle 0).bal = BalanceCall.ok none)
    (hc : (oracle 0).ctr ≠ CountersCall.exn) :
    get_wallet_info oracle wallet lang
      = ⟨FetchResult.success
            (walletText wallet lang 0 (txRender (oracle 0).ctr)), 1, []⟩ ∧
    formatBalance6 0 = "0.000000" := by
  constructor
  · rcases hcc : (oracle 0).ctr with t | _ | _
    · simp [get_wallet_info, fetchLoop, retries, hb, hcc]
    · simp [get_wallet_info, fetchLoop, retries, hb, hcc]
    · exact absurd hcc hc
  · rfl

/-- Witness for `missing_balance_defaults_zero`: JSON without the balance
field, counters reporting 3 transactions. -/
theorem missing_balance_defaults_zero_witness :
    get_wallet_info
        (fun _ => ⟨BalanceCall.ok none, CountersCall.ok (some 3)⟩)
        "0xW" Lang.ru
      = ⟨FetchResult.success
            (walletText "0xW" Lang.ru 0 (txRender (CountersCall.ok (some 3)))),
          1, []⟩ ∧
    formatBalance6 0 = "0.000000" :=
  missing_balance_defaults_zero
    (fun _ => ⟨BalanceCall.ok none, CountersCall.ok (some 3)⟩)
    "0xW" Lang.ru rfl (by decide)

/-! ## C7 and C4 theorems -/

/-- None of the button labels matches the wallet pattern. -/
lemma labels_not_wallet (lang : Lang) :
    re_match_wallet (t_check_balance lang) = false ∧
    re_match_wallet (t_wallet_list lang) = false ∧
    re_match_wallet (t_auto_check_on lang) = false ∧
    re_match_wallet (t_auto_check_off lang) = false := by
  cases lang <;> exact ⟨by decide, by decide, by decide, by decide⟩

/-- C7 amended: the wallet-registration path is taken exactly when the text
matches the source regex — `0x` + 40 hex characters, optionally followed by
a single trailing newline (Python's `$` also matches before a final
newline). -/
theorem handle_text_wallet_iff (lang : Lang) (text : String) :
    handle_text lang text = HandleAction.registerWallet ↔
      re_match_wallet text = true := by
  constructor
  · intro h
    unfold handle_text at h
    split_ifs at h with h1 h2 h3 h4
    exact h4
  · intro hre
    have l1 : ¬(text = t_check_balance lang ∨ text = t_check_balance Lang.en ∨
        text = t_check_balance Lang.ru) := by
      rintro (rfl | rfl | rfl) <;>
        simp [(labels_not_wallet _).1] at hre
    have l2 : ¬(text = t_wallet_list lang ∨ text = t_wallet_list Lang.en ∨
        text = t_wallet_list Lang.ru) := by
      rintro (rfl | rfl | rfl) <;>
        simp [(labels_not_wallet _).2.1] at hre
    have l3 : text ∉ [t_auto_check_on lang, t_auto_check_off lang,
        t_auto_check_on Lang.en, t_auto_check_off Lang.en,
        t_auto_check_on Lang.ru, t_auto_check_off Lang.ru] := by
      intro hm
      simp only [List.mem_cons, List.not_mem_nil, or_false] at hm
      rcases hm with rfl | rfl | rfl | rfl | rfl | rfl <;>
        first
          | simp [(labels_not_wallet _).2.2.1] at hre
          | simp [(labels_not_wallet _).2.2.2] at hre
    unfold handle_text
    rw [if_neg l1, if_neg l2, if_neg l3, if_pos hre]

/-- Witness for `handle_text_wallet_iff`: a well-formed wallet address is
routed to registration. -/
theorem handle_text_wallet_iff_witness :
    handle_text Lang.en "0x1234567890abcdefABCDEF1234567890abcdefAB"
      = HandleAction.registerWallet :=
  (handle_text_wallet_iff Lang.en
      "0x1234567890abcdefABCDEF1234567890abcdefAB").mpr (by decide)

/-- C7 counterexample: `"0x" + 40 hex + "\n"` is NOT exactly `0x` followed
by 40 hex characters, yet `re.match(r'^0x[a-fA-F0-9]{40}$', ...)` accepts it
(`$` matches before a final newline) and `handle_text` takes the
wallet-registration path on it, contradicting the claimed "if and only if
the string matches exactly". -/
theorem handle_text_wallet_newline_cex :
    handle_text Lang.en "0xaaaaaaaaaaaaaaaaaaaaaaaaaaaaaaaaaaaaaaaa\n"
      = HandleAction.registerWallet ∧
    specWalletExact "0xaaaaaaaaaaaaaaaaaaaaaaaaaaaaaaaaaaaaaaaa\n"
      = false := by
  constructor
  · decide
  · decide

/-- C4 amended: an inbound text that is neither a recognized command label
nor a wallet-pattern match is silently ignored — `handle_text` falls
through all branches and returns without sending any reply, making any
network call, mutating the store, or logging anything. (The claim's
"rejected with a specific localized message" does not hold: no message is
produced at all.) -/
theorem handle_text_malformed_ignored (lang : Lang) (text : String)
    (hw : re_match_wallet text = false) (hcmd : text ∉ commandLabels) :
    handle_text lang text = HandleAction.ignore := by
  simp only [commandLabels, List.mem_cons, List.not_mem_nil, or_false,
    not_or] at hcmd
  obtain ⟨n1, n2, n3, n4, n5, n6, n7, n8⟩ := hcmd
  cases lang <;>
    simp [handle_text, n1, n2, n3, n4, n5, n6, n7, n8, hw]

/-- Witness for `handle_text_malformed_ignored` at the malformed input
"0xZZ". -/
theorem handle_text_malformed_ignored_witness :
    handle_text Lang.ru "0xZZ" = HandleAction.ignore :=
  handle_text_malformed_ignored Lang.ru "0xZZ" (by decide) (by decide)

/-- C4 counterexample: for the malformed wallet text "hello" (not a command,
not the wallet pattern) `handle_text` takes the silent fall-through branch
in both languages — no localized rejection message is ever sent, refuting
the claimed synchronous rejection with a user-facing message. -/
theorem handle_text_malformed_silent_cex :
    re_match_wallet "hello" = false ∧
    handle_text Lang.en "hello" = HandleAction.ignore ∧
    handle_text Lang.ru "hello" = HandleAction.ignore :=
  ⟨by decide, by decide, by decide⟩

/-! ## C5, C8, C9 theorems -/

/-- C5 (code bug): when the wallet-list query fails during a manual balance
check, `get_user_wallets` swallows the exception and returns `[]`, so
`cmd_check` replies with the "you have no saved wallets" message — for
every identity, store content and language — instead of the generic
localized error the spec prescribes for store unavailability. The second
conjunct shows the sent message really differs from the prescribed one. -/
theorem cmd_check_store_down_replies_no_wallets
    (oracles : String → Nat → Attempt) (uid : Int) (store : Store)
    (lang : Lang) :
    cmd_check false oracles uid store lang = [t_no_wallets lang] ∧
    t_no_wallets lang ≠ t_error_occurred lang := by
  constructor
  · simp [cmd_check, get_user_wallets]
  · cases lang <;> decide

/-- C8: an identity already holding `MAX_WALLETS = 5` wallets that submits
a further, not-yet-registered wallet is answered with the limit message and
the store is returned unchanged — no insert happens. -/
theorem sixth_wallet_rejected (oracle : Nat → Attempt) (uid : Int)
    (text : String) (lang : Lang) (store : Store)
    (hlen : (get_user_wallets true uid store).length = MAX_WALLETS)
    (hnew : text ∉ get_user_wallets true uid store) :
    handle_wallet oracle uid text lang store
      = (t_wallet_limit lang MAX_WALLETS, store) := by
  simp only [handle_wallet]
  rw [if_neg hnew, if_pos (le_of_eq hlen.symm)]


/-- Witness for `sixth_wallet_rejected`: user 1 holds five wallets and
submits a sixth. -/
theorem sixth_wallet_rejected_witness :
    handle_wallet (fun _ => ⟨BalanceCall.badStatus, CountersCall.badStatus⟩)
        1 "0xa6" Lang.en store5
      = (t_wallet_limit Lang.en MAX_WALLETS, store5) :=
  sixth_wallet_rejected
    (fun _ => ⟨BalanceCall.badStatus, CountersCall.badStatus⟩)
    1 "0xa6" Lang.en store5 (by decide) (by decide)


/-- Under the invariant, the flag the handlers read (`DISTINCT auto_check`,
first row) is the flag of every row of the identity. -/
lemma distinct_auto_check_eq (uid : Int) (store : Store)
    (h : autoCheckUniform store) (r : WalletRow) (hr : r ∈ store)
    (hu : r.user_id = uid) :
    distinct_auto_check uid store = r.auto_check := by
  unfold distinct_auto_check
  rcases hf : store.filter (fun r => r.user_id == uid) with _ | ⟨r0, rest⟩
  · have hrf : r ∈ store.filter (fun r => r.user_id == uid) := by
      simp [List.mem_filter, hr, hu]
    rw [hf] at hrf
    simp at hrf
  · have hr0 : r0 ∈ store.filter (fun r => r.user_id == uid) := by
      rw [hf]; exact List.mem_cons_self _ _
    have hr0s : r0 ∈ store := (List.mem_filter.mp hr0).1
    rw [hf]
    simpa using h r0 hr0s r hr (by
      have := (List.mem_filter.mp hr0).2
      simp at this
      rw [this, hu])

/-- The row function of the toggle `UPDATE` preserves `user_id`. -/
lemma toggle_row_user (uid ns : Int) (s : WalletRow) :
    ((if s.user_id == uid then { s with auto_check := ns } else s) :
      WalletRow).user_id = s.user_id := by
  by_cases e : s.user_id = uid <;> simp [e]

/-- The row function of the toggle `UPDATE` sets the flag of the identity's
rows to the new status and leaves other rows' flags unchanged. -/
lemma toggle_row_flag (uid ns : Int) (s : WalletRow) :
    ((if s.user_id == uid then { s with auto_check := ns } else s) :
      WalletRow).auto_check = if s.user_id = uid then ns else s.auto_check := by
  by_cases e : s.user_id = uid <;> simp [e]

/-- C9: the auto-check invariant — all rows of one identity share one flag
value — is preserved by both store-mutating operations: the toggle updates
every row of the identity uniformly, and a newly inserted wallet inherits
the identity's current flag (`distinct_auto_check`). -/
theorem auto_check_flag_invariant (oracle : Nat → Attempt) (uid : Int)
    (text : String) (lang : Lang) (store : Store)
    (h : autoCheckUniform store) :
    autoCheckUniform (cmd_check_interval uid lang store).2 ∧
    autoCheckUniform (handle_wallet oracle uid text lang store).2 := by
  constructor
  · intro r1 h1 r2 h2 h12
    simp only [cmd_check_interval, List.mem_map] at h1 h2
    obtain ⟨s1, hs1, rfl⟩ := h1
    obtain ⟨s2, hs2, rfl⟩ := h2
    rw [toggle_row_user, toggle_row_user] at h12
    rw [toggle_row_flag, toggle_row_flag]
    by_cases e1 : s1.user_id = uid
    · have e2 : s2.user_id = uid := by rw [← h12]; exact e1
      rw [if_pos e1, if_pos e2]
    · have e2 : ¬s2.user_id = uid := fun e2 => e1 (by rw [h12]; exact e2)
      rw [if_neg e1, if_neg e2]
      exact h s1 hs1 s2 hs2 h12
  · simp only [handle_wallet]
    split_ifs with hdup hlim
    · exact h
    · exact h
    · intro r1 h1 r2 h2 h12
      simp only [List.mem_append, List.mem_singleton] at h1 h2
      rcases h1 with h1 | rfl <;> rcases h2 with h2 | rfl
      · exact h r1 h1 r2 h2 h12
      · exact (distinct_auto_check_eq uid store h r1 h1 h12).symm
      · exact distinct_auto_check_eq uid store h r2 h2 h12.symm
      · rfl

/-- Witness for `auto_check_flag_invariant`: the uniform five-wallet store,
toggling and inserting for user 1. -/
theorem auto_check_flag_invariant_witness :
    autoCheckUniform (cmd_check_interval 1 Lang.en store5).2 ∧
    autoCheckUniform
      (handle_wallet
        (fun _ => ⟨BalanceCall.badStatus, CountersCall.badStatus⟩)
        1 "0xa6" Lang.en store5).2 :=
  auto_check_flag_invariant
    (fun _ => ⟨BalanceCall.badStatus, CountersCall.badStatus⟩)
    1 "0xa6" Lang.en store5
    (by
      intro r1 h1 r2 h2 _
      simp only [store5, List.mem_cons, List.not_mem_nil, or_false] at h1 h2
      rcases h1 with rfl | rfl | rfl | rfl | rfl <;>
        rcases h2 with rfl | rfl | rfl | rfl | rfl <;> rfl)

/-! ## C3 theorems -/

/-- A 23-entry snapshot is sliced into the three chunks
`[0:10]`, `[10:20]`, `[20:30]`. -/
lemma chunksOf10_eq_of_len23 (es : List Entry) (h : es.length = 23) :
    chunksOf10 es
      = [es.take 10, (es.drop 10).take 10, (es.drop 20).take 10] := by
  have h1 : es ≠ [] := by
    intro hh; rw [hh] at h; simp at h
  have h2 : es.drop 10 ≠ [] := by
    intro hh
    have := congrArg List.length hh
    rw [List.length_drop, h] at this
    simp at this
  have h3 : es.drop 20 ≠ [] := by
    intro hh
    have := congrArg List.length hh
    rw [List.length_drop, h] at this
    simp at this
  have h30 : (es.drop 20).drop 10 = [] := by
    apply List.length_eq_zero.mp
    rw [List.length_drop, List.length_drop, h]
  rw [chunksOf10, dif_neg h1]
  rw [chunksOf10, dif_neg h2]
  have h20 : (es.drop 10).drop 10 = es.drop 20 := by rw [List.drop_drop]
  rw [h20]
  rw [chunksOf10, dif_neg h3]
  rw [h30, chunksOf10]
  simp

/-- Each entry contributes exactly its three events to a chunk's trace. -/
lemma length_flatMap_entryEvents (c : List Entry) :
    (c.flatMap entryEvents).length = 3 * c.length := by
  induction c with
  | nil => simp
  | cons e rest ih =>
      simp only [List.flatMap_cons, List.length_append, ih, entryEvents,
        List.length_cons, List.length_nil]
      ring

/-- The spec-modelled chunk trace has one 2 s wait fewer than entries. -/
lemma length_specChunkEvents (c : List Entry) (hne : c ≠ []) :
    (specChunkEvents c).length + 1 = 3 * c.length := by
  induction c with
  | nil => exact absurd rfl hne
  | cons e rest ih =>
      cases rest with
      | nil => simp [specChunkEvents]
      | cons e2 r2 =>
          have h2 := ih (by simp)
          simp only [specChunkEvents, List.length_cons] at h2 ⊢
          omega

/-- C3 amended: a 23-entry snapshot is partitioned order-preservingly into
chunks of sizes 10, 10, 3 and processed strictly sequentially, but the 2 s
wait runs after EVERY entry — including a chunk's last — and the 5 s wait
runs after EVERY chunk — including the final one (so consecutive chunks are
separated by a 2 s wait followed by a 5 s wait). -/
theorem scheduler_chunking_23 (es : List Entry) (h : es.length = 23) :
    (chunksOf10 es).map List.length = [10, 10, 3] ∧
    (chunksOf10 es).flatten = es ∧
    dispatchEvents es
      = (es.take 10).flatMap entryEvents ++
          ([SchedEvent.sleep 5] ++
            (((es.drop 10).take 10).flatMap entryEvents ++
              ([SchedEvent.sleep 5] ++
                ((es.drop 20).flatMap entryEvents ++
                  [SchedEvent.sleep 5])))) := by
  have hc := chunksOf10_eq_of_len23 es h
  have t3 : (es.drop 20).take 10 = es.drop 20 :=
    List.take_of_length_le (by rw [List.length_drop, h]; norm_num)
  refine ⟨?_, ?_, ?_⟩
  · rw [hc]
    simp [List.length_take, List.length_drop, h]
  · rw [hc]
    simp only [List.flatten_cons, List.flatten_nil, List.append_nil, t3]
    have h20 : es.drop 20 = (es.drop 10).drop 10 := by rw [List.drop_drop]
    rw [h20, List.take_append_drop, List.take_append_drop]
  · simp only [dispatchEvents, hc, t3, List.flatMap_cons, List.flatMap_nil,
      List.append_nil, List.append_assoc, List.cons_append, List.nil_append]

theorem scheduler_chunking_23_witness :
    (chunksOf10 entries23).map List.length = [10, 10, 3] ∧
    (chunksOf10 entries23).flatten = entries23 ∧
    dispatchEvents entries23
      = (entries23.take 10).flatMap entryEvents ++
          ([SchedEvent.sleep 5] ++
            (((entries23.drop 10).take 10).flatMap entryEvents ++
              ([SchedEvent.sleep 5] ++
                ((entries23.drop 20).flatMap entryEvents ++
                  [SchedEvent.sleep 5])))) :=
  scheduler_chunking_23 entries23 (by simp [entries23])

/-- C3 counterexample: on the 23-entry snapshot the real dispatch trace is
NOT the spec-claimed one ("no trailing 2 s wait after a chunk's last entry,
exactly 5 s between chunks"): the real trace has 72 events
(23 entry pairs + 23 trailing 2 s waits + 3 trailing 5 s waits), the
claimed trace only 68 (20 inner 2 s waits, 2 separating 5 s waits). -/
theorem scheduler_trailing_sleeps_cex :
    dispatchEvents entries23 ≠ specDispatchEvents entries23 := by
  have h23 : entries23.length = 23 := by simp [entries23]
  have hc := chunksOf10_eq_of_len23 entries23 h23
  have hl1 : (entries23.take 10).length = 10 := by
    rw [List.length_take, h23]; omega
  have hl2 : ((entries23.drop 10).take 10).length = 10 := by
    rw [List.length_take, List.length_drop, h23]; omega
  have hl3 : ((entries23.drop 20).take 10).length = 3 := by
    rw [List.length_take, List.length_drop, h23]; omega
  have hL : (dispatchEvents entries23).length = 72 := by
    simp only [dispatchEvents, hc, List.flatMap_cons, List.flatMap_nil,
      List.append_nil, List.length_append, length_flatMap_entryEvents,
      hl1, hl2, hl3, List.length_singleton]
  have hR : (specDispatchEvents entries23).length = 68 := by
    have e1 := length_specChunkEvents (entries23.take 10)
      (by intro hh; rw [hh] at hl1; simp at hl1)
    have e2 := length_specChunkEvents ((entries23.drop 10).take 10)
      (by intro hh; rw [hh] at hl2; simp at hl2)
    have e3 := length_specChunkEvents ((entries23.drop 20).take 10)
      (by intro hh; rw [hh] at hl3; simp at hl3)
    rw [hl1] at e1
    rw [hl2] at e2
    rw [hl3] at e3
    simp only [specDispatchEvents, hc, specJoinChunks, List.length_append,
      List.length_cons]
    omega
  intro he
  rw [he, hR] at hL
  exact absurd hL (by norm_num)

